import Mathlib

/-!
Verification of the GrumpiMiner combinatorial test core: a shallow embedding
of `grumpi_miner/dimensions.py`, `grumpi_miner/combination_generator.py` and
`grumpi_miner/test_executor.py`, followed by theorems settling the claims
about canonical hashing, combination generation, cap/ceiling handling and
test execution.

Modelling conventions:
- A Python `Enum` dimension class is a `Dimension`: its class name together
  with the ordered list of its members' `value` strings (an enum member is
  identified with its value string, which is unique within its class).
- A Python `dict` is an association list in insertion order; lookup is
  `List.lookup` (keys are unique in every dict the code builds).
- Python truthiness of an optional integer argument (`if max_per_dimension:`)
  is modelled explicitly: `none` and `some 0` are falsy.
- Wall-clock readings (`time.time()`, `datetime.now()`) are ambient
  nondeterminism with no bearing on the claims; elapsed times are modelled
  as the constant 0 and timestamps are omitted. Python floats are modelled
  as exact rationals.
- A predicate invocation outcome is a `PredOutcome`: a returned boolean, a
  raised `TimeoutError`, or any other raised exception carrying its
  `str(e)` message. The thread-pool branch of `execute_batch`
  (`parallel=True`) is concurrency and is not embedded; the sequential
  branch is embedded in full.
-/

namespace GrumpiMiner

/-- A dimension class from `dimensions.py`: the class `__name__` and the
ordered list of its enum members' `value` strings. -/
structure Dimension where
  name : String
  values : List String
deriving Repr, DecidableEq

/-- `FormatVariation` from `dimensions.py`. -/
def FormatVariation : Dimension :=
  ⟨"FormatVariation",
   ["natural_language", "xml", "json", "yaml", "code", "latex", "diagrams", "hybrid"]⟩

/-- `StructuralArchitecture` from `dimensions.py`. -/
def StructuralArchitecture : Dimension :=
  ⟨"StructuralArchitecture", ["flat", "hierarchical", "graph", "tree", "mesh", "layered"]⟩

/-- `ModelOrchestration` from `dimensions.py`. -/
def ModelOrchestration : Dimension :=
  ⟨"ModelOrchestration", ["single", "sequential", "parallel", "hierarchical", "ensemble", "cascading"]⟩

/-- `ContextRepresentation` from `dimensions.py`. -/
def ContextRepresentation : Dimension :=
  ⟨"ContextRepresentation", ["minimal", "extended", "contextual", "global", "windowed", "dynamic"]⟩

/-- `InstructionSemantics` from `dimensions.py`. -/
def InstructionSemantics : Dimension :=
  ⟨"InstructionSemantics",
   ["imperative", "declarative", "functional", "constraint_based", "goal_oriented", "example_based"]⟩

/-- `VerificationProtocol` from `dimensions.py`. -/
def VerificationProtocol : Dimension :=
  ⟨"VerificationProtocol", ["none", "basic", "comprehensive", "formal", "statistical", "heuristic"]⟩

/-- `MetaCognitiveScaffolding` from `dimensions.py`. -/
def MetaCognitiveScaffolding : Dimension :=
  ⟨"MetaCognitiveScaffolding", ["none", "reflection", "planning", "monitoring", "evaluation", "adaptive"]⟩

/-- `ConstraintArchitecture` from `dimensions.py`. -/
def ConstraintArchitecture : Dimension :=
  ⟨"ConstraintArchitecture", ["unconstrained", "soft", "hard", "adaptive", "hierarchical", "negotiable"]⟩

/-- `CrossModalTranslation` from `dimensions.py`. -/
def CrossModalTranslation : Dimension :=
  ⟨"CrossModalTranslation",
   ["none", "text_to_code", "code_to_text", "diagram_to_text", "text_to_diagram", "multimodal"]⟩

/-- `TemporalDynamics` from `dimensions.py`. -/
def TemporalDynamics : Dimension :=
  ⟨"TemporalDynamics", ["static", "sequential", "concurrent", "real_time", "adaptive", "predictive"]⟩

/-- `DIMENSION_CLASSES` from `dimensions.py`: the global ordered registry. -/
def DIMENSION_CLASSES : List Dimension :=
  [FormatVariation, StructuralArchitecture, ModelOrchestration, ContextRepresentation,
   InstructionSemantics, VerificationProtocol, MetaCognitiveScaffolding,
   ConstraintArchitecture, CrossModalTranslation, TemporalDynamics]

/-- `DimensionCombination` from `combination_generator.py`: its `dimensions`
dict (class name → chosen member's value string), as an association list in
insertion order. -/
structure DimensionCombination where
  dimensions : List (String × String)
deriving Repr, DecidableEq

/-- Lexicographic code-point comparison of character lists, the order Python
`sorted` uses on strings. -/
def charsLe : List Char → List Char → Bool
  | [], _ => true
  | _ :: _, [] => false
  | a :: as, b :: bs =>
      if a.val < b.val then true else if b.val < a.val then false else charsLe as bs

/-- String comparison by code points, as Python `sorted` compares strings. -/
def strLe (a b : String) : Bool := charsLe a.data b.data

/-- Stable insertion into a sorted list of strings. -/
def insertSorted (s : String) : List String → List String
  | [] => [s]
  | t :: ts => if strLe s t then s :: t :: ts else t :: insertSorted s ts

/-- Python `sorted` on a list of strings (stable sort by code points). -/
def sortStrings : List String → List String
  | [] => []
  | s :: ss => insertSorted s (sortStrings ss)

/-- `DimensionCombination.get_hash`: for each registered dimension class in
registry order, if the class name is a key of the `dimensions` dict, emit
`"<name>:<value>"`; then sort the parts and join them with `"|"`. -/
def DimensionCombination.get_hash (c : DimensionCombination) : String :=
  let parts := DIMENSION_CLASSES.filterMap (fun dim_class =>
    match c.dimensions.lookup dim_class.name with
    | some v => some (dim_class.name ++ ":" ++ v)
    | none => none)
  String.intercalate "|" (sortStrings parts)

/-- All size-`k` sublists of a list, in the enumeration order of Python
`itertools.combinations` (lexicographic by position). -/
def combinationsOf : List α → Nat → List (List α)
  | _, 0 => [[]]
  | [], _ + 1 => []
  | x :: xs, k + 1 =>
      (combinationsOf xs k).map (fun t => x :: t) ++ combinationsOf xs (k + 1)

/-- `CombinationGenerator.generate_dimension_groups`: all groups of dimension
classes of a given size; sizes below 2 or above the registry size yield `[]`. -/
def generate_dimension_groups (size : Int) : List (List Dimension) :=
  if size < 2 ∨ size > (DIMENSION_CLASSES.length : Int) then []
  else combinationsOf DIMENSION_CLASSES size.toNat

/-- The `values = values[:max_per_dimension] if max_per_dimension else values`
step of `generate_combinations_for_group`; `none` and `some 0` are falsy in
Python, so both leave the list untruncated. -/
def truncateValues (values : List String) (max_per_dimension : Option Nat) : List String :=
  match max_per_dimension with
  | none => values
  | some c => if c = 0 then values else values.take c

/-- `itertools.product` over a list of lists: the leftmost factor varies
slowest, exactly as Python iterates the cross product. -/
def productLists : List (List α) → List (List α)
  | [] => [[]]
  | xs :: rest => (xs.map (fun x => (productLists rest).map (fun t => x :: t))).flatten

/-- `CombinationGenerator.generate_combinations_for_group`: per-dimension
value lists (truncated when the cap is truthy), tagged with the class name,
then the cross product, each tuple becoming a `DimensionCombination` dict. -/
def generate_combinations_for_group (dimension_group : List Dimension)
    (max_per_dimension : Option Nat) : List DimensionCombination :=
  let dimension_values := dimension_group.map (fun dim_class =>
    (truncateValues dim_class.values max_per_dimension).map (fun v => (dim_class.name, v)))
  (productLists dimension_values).map (fun combo => ⟨combo⟩)

/-- The per-dimension variant count the spec's size formula uses: the full
count with no cap, `min(cap, count)` with one. -/
def cappedCount (cap : Option Nat) (d : Dimension) : Nat :=
  cap.elim d.values.length (fun c => min c d.values.length)

/-- The `if max_total_combinations and total_count >= max_total_combinations`
test of `generate_all_combinations`: false when the ceiling is `None` or `0`
(falsy), otherwise the comparison. -/
def hitsCeiling (total_count : Nat) (max_total_combinations : Option Nat) : Bool :=
  match max_total_combinations with
  | none => false
  | some m => if m = 0 then false else decide (m ≤ total_count)

/-- The inner loop of `generate_all_combinations` over one size's dimension
groups: appends each group's full cross product, accumulates the running
total, and reports `true` when the ceiling check fired (early return). -/
def goGroups (cap max_total : Option Nat) :
    List (List Dimension) → Nat → List DimensionCombination × Nat × Bool
  | [], total_count => ([], total_count, false)
  | g :: gs, total_count =>
      let combos := generate_combinations_for_group g cap
      let total' := total_count + combos.length
      if hitsCeiling total' max_total then (combos, total', true)
      else
        let r := goGroups cap max_total gs total'
        (combos ++ r.1, r.2.1, r.2.2)

/-- The outer loop of `generate_all_combinations` over sizes: `results[size]`
is created before the group loop, so the size being processed when the
ceiling fires keeps its partial list and later sizes are absent. -/
def goSizes (cap max_total : Option Nat) :
    List Int → Nat → List (Int × List DimensionCombination)
  | [], _ => []
  | s :: ss, total_count =>
      let r := goGroups cap max_total (generate_dimension_groups s) total_count
      (s, r.1) :: (if r.2.2 then [] else goSizes cap max_total ss r.2.1)

/-- Python `range(lo, hi)` over integers. -/
def intRange (lo hi : Int) : List Int :=
  (List.range (hi - lo).toNat).map (fun i => lo + (i : Int))

/-- `CombinationGenerator.generate_all_combinations`: iterate sizes from
`min_dimensions` to `max_dimensions` inclusive, returning the dict
(association list) from size to that size's accumulated combinations. -/
def generate_all_combinations (min_dimensions max_dimensions : Int)
    (max_per_dimension max_total_combinations : Option Nat) :
    List (Int × List DimensionCombination) :=
  goSizes max_per_dimension max_total_combinations
    (intRange min_dimensions (max_dimensions + 1)) 0

/-- Modelled from the spec: the ceiling discipline of §4.1 `allCombinations`
stated as a reference computation — a subset's cross product is emitted in
full exactly when the running total before it is still below `maxTotal`.
Inner loop over one size's groups. -/
def goGroupsSpec (cap : Option Nat) (maxTotal : Nat) :
    List (List Dimension) → Nat → List DimensionCombination × Nat
  | [], total => ([], total)
  | g :: gs, total =>
      if total < maxTotal then
        let combos := generate_combinations_for_group g cap
        let r := goGroupsSpec cap maxTotal gs (total + combos.length)
        (combos ++ r.1, r.2)
      else ([], total)

/-- Modelled from the spec: outer loop of the §4.1 ceiling discipline — a
size is opened exactly when the running total before it is below `maxTotal`. -/
def goSizesSpec (cap : Option Nat) (maxTotal : Nat) :
    List Int → Nat → List (Int × List DimensionCombination)
  | [], _ => []
  | s :: ss, total =>
      if total < maxTotal then
        let r := goGroupsSpec cap maxTotal (generate_dimension_groups s) total
        (s, r.1) :: goSizesSpec cap maxTotal ss r.2
      else []

/-- Modelled from the spec: `allCombinations` with a positive `maxTotal`,
emitting whole subsets while the running total is below the ceiling. -/
def generate_all_combinations_spec (min_dimensions max_dimensions : Int)
    (max_per_dimension : Option Nat) (maxTotal : Nat) :
    List (Int × List DimensionCombination) :=
  goSizesSpec max_per_dimension maxTotal
    (intRange min_dimensions (max_dimensions + 1)) 0

/-- `CombinationGenerator.__init__`: `min_dimensions = max(2, arg)`;
`max_dimensions = arg or len(DIMENSION_CLASSES)` (so `None` and `0` both fall
back to the registry size) then clamped by `min(·, len(DIMENSION_CLASSES))`. -/
structure CombinationGenerator where
  min_dimensions : Int
  max_dimensions : Int
deriving Repr, DecidableEq

/-- Constructor of `CombinationGenerator` (its `__init__`). -/
def CombinationGenerator.init (min_dimensions : Int) (max_dimensions : Option Int) :
    CombinationGenerator :=
  let minD := max 2 min_dimensions
  let maxD :=
    match max_dimensions with
    | none => (DIMENSION_CLASSES.length : Int)
    | some m => if m = 0 then (DIMENSION_CLASSES.length : Int) else m
  ⟨minD, min maxD (DIMENSION_CLASSES.length : Int)⟩

/-- `TestStatus` from `test_executor.py`. -/
inductive TestStatus where
  | pending
  | running
  | passed
  | failed
  | skipped
  | error
deriving Repr, DecidableEq

/-- The `value` string of a `TestStatus`. -/
def TestStatus.value : TestStatus → String
  | .pending => "pending"
  | .running => "running"
  | .passed => "passed"
  | .failed => "failed"
  | .skipped => "skipped"
  | .error => "error"

/-- Iteration order of `for status in TestStatus`. -/
def allStatuses : List TestStatus :=
  [.pending, .running, .passed, .failed, .skipped, .error]

/-- Outcome of one predicate invocation: a returned boolean, a raised
`TimeoutError`, or any other raised exception with its `str(e)` message. -/
inductive PredOutcome where
  | ok (b : Bool)
  | timeoutErr (msg : String)
  | raised (msg : String)
deriving Repr, DecidableEq

/-- `TestResult` from `test_executor.py` (wall-clock fields modelled as 0 /
omitted, metadata always the empty dict here as `execute_test` builds it). -/
structure TestResult where
  combination : DimensionCombination
  status : TestStatus
  execution_time : ℚ
  error_message : Option String
deriving Repr, DecidableEq

/-- The `f"Test timed out after {timeout}s"` message; a `None` timeout
formats as the string `"None"`, as Python f-strings do. -/
def timeoutMessage (timeout : Option ℚ) : String :=
  "Test timed out after " ++ (match timeout with
    | none => "None"
    | some q => toString q) ++ "s"

/-- `TestExecutor.execute_test`: run the predicate; a returned boolean maps
to PASSED/FAILED, a `TimeoutError` to ERROR with the timeout message, any
other exception to ERROR with `str(e)`. Elapsed time modelled as 0. -/
def execute_test (test_function : DimensionCombination → PredOutcome)
    (combination : DimensionCombination) (timeout : Option ℚ) : TestResult :=
  match test_function combination with
  | .ok b => ⟨combination, if b then .passed else .failed, 0, none⟩
  | .timeoutErr _ => ⟨combination, .error, 0, some (timeoutMessage timeout)⟩
  | .raised msg => ⟨combination, .error, 0, some msg⟩

/-- `TestSuite` from `test_executor.py` (timestamps omitted). -/
structure TestSuite where
  name : String
  results : List TestResult
deriving Repr, DecidableEq

/-- The sequential branch of `TestExecutor.execute_batch`: one suite, each
combination executed in input order with no timeout argument, each result
appended in turn. -/
def execute_batch (test_function : DimensionCombination → PredOutcome)
    (combinations : List DimensionCombination) (suite_name : String) : TestSuite :=
  ⟨suite_name, combinations.map (fun combo => execute_test test_function combo none)⟩

/-- The per-status count `sum(1 for r in self.results if r.status == status)`. -/
def countWithStatus (results : List TestResult) (st : TestStatus) : Nat :=
  (results.filter (fun r => r.status == st)).length

/-- The summary record returned by `TestSuite.get_summary` (the fields the
claims touch; duration omitted with the timestamps). -/
structure Summary where
  name : String
  total_tests : Nat
  status_counts : List (String × Nat)
  total_execution_time : ℚ
  pass_rate : ℚ
deriving Repr, DecidableEq

/-- `TestSuite.get_summary`: status counts keyed by status value, total time,
and `pass_rate = status_counts["passed"] / len(results) * 100 if results
else 0`. -/
def get_summary (s : TestSuite) : Summary :=
  let status_counts := allStatuses.map (fun st => (st.value, countWithStatus s.results st))
  ⟨s.name,
   s.results.length,
   status_counts,
   (s.results.map (fun r => r.execution_time)).sum,
   if s.results.isEmpty then 0
   else ((status_counts.lookup "passed").getD 0 : ℚ) / (s.results.length : ℚ) * 100⟩

/-! Helper lemmas. -/

theorem productLists_length (ls : List (List α)) :
    (productLists ls).length = (ls.map List.length).prod := by
  induction ls with
  | nil => rfl
  | cons xs rest ih =>
      simp [productLists, Function.comp_def, ih]

theorem goGroups_zero_ceiling (cap : Option Nat) (gs : List (List Dimension)) (t : Nat) :
    goGroups cap (some 0) gs t = goGroups cap none gs t := by
  induction gs generalizing t with
  | nil => rfl
  | cons g gs ih => simp [goGroups, hitsCeiling, ih]

theorem goSizes_zero_ceiling (cap : Option Nat) (ss : List Int) (t : Nat) :
    goSizes cap (some 0) ss t = goSizes cap none ss t := by
  induction ss generalizing t with
  | nil => rfl
  | cons s ss ih => simp [goSizes, goGroups_zero_ceiling, ih]

theorem goGroupsSpec_stopped (cap : Option Nat) (m : Nat) (gs : List (List Dimension))
    (t : Nat) (ht : ¬ t < m) : goGroupsSpec cap m gs t = ([], t) := by
  cases gs with
  | nil => rfl
  | cons g gs => simp [goGroupsSpec, ht]

theorem goSizesSpec_stopped (cap : Option Nat) (m : Nat) (ss : List Int)
    (t : Nat) (ht : ¬ t < m) : goSizesSpec cap m ss t = [] := by
  cases ss with
  | nil => rfl
  | cons s ss => simp [goSizesSpec, ht]

theorem goGroups_eq_spec (cap : Option Nat) (m : Nat) (hm : 1 ≤ m)
    (gs : List (List Dimension)) (t : Nat) (ht : t < m) :
    goGroups cap (some m) gs t =
      ((goGroupsSpec cap m gs t).1, (goGroupsSpec cap m gs t).2,
        decide (m ≤ (goGroupsSpec cap m gs t).2)) := by
  induction gs generalizing t with
  | nil =>
      have h : ¬ m ≤ t := by omega
      simp [goGroups, goGroupsSpec, h]
  | cons g gs ih =>
      have hm0 : m ≠ 0 := by omega
      by_cases hc : m ≤ t + (generate_combinations_for_group g cap).length
      · have hstop : ¬ t + (generate_combinations_for_group g cap).length < m := by omega
        simp [goGroups, goGroupsSpec, hitsCeiling, hm0, hc, ht,
          goGroupsSpec_stopped cap m gs _ hstop]
      · have hlt : t + (generate_combinations_for_group g cap).length < m := by omega
        simp [goGroups, goGroupsSpec, hitsCeiling, hm0, hc, ht, ih _ hlt]

theorem goSizes_eq_spec (cap : Option Nat) (m : Nat) (hm : 1 ≤ m)
    (ss : List Int) (t : Nat) (ht : t < m) :
    goSizes cap (some m) ss t = goSizesSpec cap m ss t := by
  induction ss generalizing t with
  | nil => rfl
  | cons s ss ih =>
      rw [goSizes, goSizesSpec, goGroups_eq_spec cap m hm _ t ht]
      by_cases h2 : m ≤ (goGroupsSpec cap m (generate_dimension_groups s) t).2
      · have hstop : ¬ (goGroupsSpec cap m (generate_dimension_groups s) t).2 < m := by omega
        simp [ht, h2, goSizesSpec_stopped cap m ss _ hstop]
      · have hlt : (goGroupsSpec cap m (generate_dimension_groups s) t).2 < m := by omega
        simp [ht, h2, ih _ hlt]

/-! Theorems settling the claims. -/

/-- Claim C1: the canonical key `get_hash` of a `DimensionCombination` is a
function only of its dimension-to-variant assignments — two combinations
whose `dimensions` dicts contain the same mapping, in whatever insertion
order they were built, hash to the same string. -/
theorem get_hash_depends_only_on_assignments (c₁ c₂ : DimensionCombination)
    (h : ∀ k, c₁.dimensions.lookup k = c₂.dimensions.lookup k) :
    c₁.get_hash = c₂.get_hash := by
  unfold DimensionCombination.get_hash
  have heq : DIMENSION_CLASSES.filterMap (fun dim_class =>
      match c₁.dimensions.lookup dim_class.name with
      | some v => some (dim_class.name ++ ":" ++ v)
      | none => none) =
    DIMENSION_CLASSES.filterMap (fun dim_class =>
      match c₂.dimensions.lookup dim_class.name with
      | some v => some (dim_class.name ++ ":" ++ v)
      | none => none) :=
    List.filterMap_congr (fun d _ => by rw [h])
  rw [heq]

/-- Witness for C1: the same two-pair mapping inserted in both orders. -/
theorem get_hash_depends_only_on_assignments_witness :
    DimensionCombination.get_hash ⟨[("FormatVariation", "xml"), ("StructuralArchitecture", "flat")]⟩ =
      DimensionCombination.get_hash ⟨[("StructuralArchitecture", "flat"), ("FormatVariation", "xml")]⟩ := by
  apply get_hash_depends_only_on_assignments
  intro k
  by_cases h1 : k = "FormatVariation"
  · subst h1; rfl
  · by_cases h2 : k = "StructuralArchitecture"
    · subst h2; rfl
    · have b1 : (k == "FormatVariation") = false := beq_eq_false_iff_ne.mpr h1
      have b2 : (k == "StructuralArchitecture") = false := beq_eq_false_iff_ne.mpr h2
      simp [List.lookup, b1, b2]

/-- Claim C2: `execute_test` always returns a `TestResult` — PASSED on a
returned `true`, FAILED on a returned `false`, ERROR with the message
captured on any raised exception (a raised `TimeoutError` also yields ERROR,
with the timeout text); and the sequential `execute_batch` completes with one
result per input combination (totality of the embedding: nothing
predicate-originated propagates). -/
theorem execute_test_outcome_cases (p : DimensionCombination → PredOutcome)
    (c : DimensionCombination) (t : Option ℚ) :
    (∀ b, p c = PredOutcome.ok b →
        (execute_test p c t).status = (if b then TestStatus.passed else TestStatus.failed) ∧
        (execute_test p c t).error_message = none) ∧
    (∀ msg, p c = PredOutcome.raised msg →
        (execute_test p c t).status = TestStatus.error ∧
        (execute_test p c t).error_message = some msg) ∧
    (∀ msg, p c = PredOutcome.timeoutErr msg →
        (execute_test p c t).status = TestStatus.error ∧
        (execute_test p c t).error_message = some (timeoutMessage t)) ∧
    (∀ (combos : List DimensionCombination) (suite_name : String),
        (execute_batch p combos suite_name).results.length = combos.length) := by
  refine ⟨fun b hb => ?_, fun msg hmsg => ?_, fun msg hmsg => ?_, fun combos suite_name => ?_⟩
  · simp [execute_test, hb]
  · simp [execute_test, hmsg]
  · simp [execute_test, hmsg]
  · simp [execute_batch]

/-- Witness for C2: a predicate returning `true` yields PASSED with no error
message, and a two-element batch yields two results. -/
theorem execute_test_outcome_cases_witness :
    (fun (_ : DimensionCombination) => PredOutcome.ok true) ⟨[]⟩ = PredOutcome.ok true ∧
    (execute_test (fun _ => PredOutcome.ok true) ⟨[]⟩ none).status = TestStatus.passed ∧
    (execute_test (fun _ => PredOutcome.ok true) ⟨[]⟩ none).error_message = none ∧
    (execute_batch (fun _ => PredOutcome.ok true) [⟨[]⟩, ⟨[]⟩] "s").results.length = 2 := by
  have h := execute_test_outcome_cases (fun _ => PredOutcome.ok true) ⟨[]⟩ none
  have h1 := h.1 true rfl
  exact ⟨rfl, by simpa using h1.1, h1.2, h.2.2.2 [⟨[]⟩, ⟨[]⟩] "s"⟩

/-- Counterexample to C3 as stated: a supplied cap of `0` is falsy in Python,
so the full variant lists are used, not `min(0, count)` of them — on the
(8, 6)-variant pair the code yields 48 combinations while the claimed
formula gives 0. -/
theorem generate_combinations_for_group_cap_zero_counterexample :
    (generate_combinations_for_group [FormatVariation, StructuralArchitecture] (some 0)).length ≠
      (([FormatVariation, StructuralArchitecture].map
        (fun d => min 0 d.values.length)).prod) := by
  decide

/-- Claim C3 (amended: the cap, when supplied, is positive — a supplied cap
of `0` is falsy and acts as no cap, see the counterexample): the number of
combinations returned by `generate_combinations_for_group` is the product
over the group's dimensions of `min(cap, variant count)` when a positive cap
is supplied, and of the full variant count otherwise. -/
theorem generate_combinations_for_group_count (g : List Dimension) (cap : Option Nat)
    (hcap : ∀ c, cap = some c → 0 < c) :
    (generate_combinations_for_group g cap).length =
      (g.map (cappedCount cap)).prod := by
  unfold generate_combinations_for_group
  rw [List.length_map, productLists_length, List.map_map]
  congr 1
  apply List.map_congr_left
  intro d _
  cases cap with
  | none => simp [truncateValues, cappedCount]
  | some c =>
      have hc : 0 < c := hcap c rfl
      have hc0 : ¬ c = 0 := by omega
      simp [truncateValues, cappedCount, hc0]

/-- Witness for C3 (amended): a cap of 2 on the (8, 6)-variant pair yields
exactly 4 combinations. -/
theorem generate_combinations_for_group_count_witness :
    (∀ c, (some 2 : Option Nat) = some c → 0 < c) ∧
    (generate_combinations_for_group [FormatVariation, StructuralArchitecture] (some 2)).length = 4 := by
  have hcap : ∀ c, (some 2 : Option Nat) = some c → 0 < c := by
    intro c hc
    injection hc with h
    omega
  refine ⟨hcap, ?_⟩
  rw [generate_combinations_for_group_count [FormatVariation, StructuralArchitecture] (some 2) hcap]
  decide

/-- Claim C4: with a positive `maxTotal`, `generate_all_combinations` equals
the reference computation written from the spec — every emitted subset's
cross product appears in full, and a subset is emitted exactly when the
running total of combinations produced before it is still below `maxTotal`
(the check runs only after appending a whole subset's output). -/
theorem generate_all_combinations_ceiling (lo hi : Int) (cap : Option Nat) (m : Nat)
    (hm : 1 ≤ m) :
    generate_all_combinations lo hi cap (some m) =
      generate_all_combinations_spec lo hi cap m := by
  unfold generate_all_combinations generate_all_combinations_spec
  exact goSizes_eq_spec cap m hm _ 0 (by omega)

/-- Witness for C4: sizes 2 to 3, cap 2, ceiling 50. -/
theorem generate_all_combinations_ceiling_witness :
    1 ≤ 50 ∧
    generate_all_combinations 2 3 (some 2) (some 50) =
      generate_all_combinations_spec 2 3 (some 2) 50 :=
  ⟨by omega, generate_all_combinations_ceiling 2 3 (some 2) 50 (by omega)⟩

/-- Counterexample to C5 as stated: an exception whose `str` is the empty
string is captured verbatim, so the result's error message is the empty
string — ERROR, but not a non-empty message. -/
theorem always_raising_empty_message_counterexample :
    ¬ (∀ r ∈ (execute_batch (fun _ => PredOutcome.raised "") [⟨[]⟩] "suite").results,
        r.status = TestStatus.error ∧ r.error_message ≠ none ∧ r.error_message ≠ some "") := by
  intro h
  have hr := h (execute_test (fun _ => PredOutcome.raised "") ⟨[]⟩ none) (by simp [execute_batch])
  exact hr.2.2 rfl

/-- Claim C5 (amended: the raised errors' messages are non-empty — an
exception with an empty `str` is captured as an empty message, see the
counterexample): a batch over a non-empty list with a predicate that raises
on every invocation (any exception with a non-empty message, or a
`TimeoutError`) yields a non-empty suite in which every result has status
ERROR and a present, non-empty error message. -/
theorem always_raising_yields_all_error_results (p : DimensionCombination → PredOutcome)
    (combos : List DimensionCombination) (suite_name : String)
    (hne : combos ≠ [])
    (hp : ∀ c ∈ combos,
        (∃ msg, p c = PredOutcome.raised msg ∧ msg ≠ "") ∨
        (∃ msg, p c = PredOutcome.timeoutErr msg)) :
    (execute_batch p combos suite_name).results ≠ [] ∧
    ∀ r ∈ (execute_batch p combos suite_name).results,
      r.status = TestStatus.error ∧ r.error_message ≠ none ∧ r.error_message ≠ some "" := by
  constructor
  · simpa [execute_batch] using hne
  · intro r hr
    simp only [execute_batch, List.mem_map] at hr
    obtain ⟨c, hc, rfl⟩ := hr
    rcases hp c hc with ⟨msg, hmsg, hne'⟩ | ⟨msg, hmsg⟩
    · simp [execute_test, hmsg, hne']
    · have ht : timeoutMessage none ≠ "" := by decide
      simp [execute_test, hmsg, ht]

/-- Witness for C5 (amended): a predicate that always raises `"boom"`. -/
theorem always_raising_yields_all_error_results_witness :
    ([⟨[]⟩] : List DimensionCombination) ≠ [] ∧
    (execute_batch (fun _ => PredOutcome.raised "boom") [⟨[]⟩] "s").results ≠ [] ∧
    (execute_test (fun _ => PredOutcome.raised "boom") ⟨[]⟩ none).status = TestStatus.error ∧
    (execute_test (fun _ => PredOutcome.raised "boom") ⟨[]⟩ none).error_message ≠ none ∧
    (execute_test (fun _ => PredOutcome.raised "boom") ⟨[]⟩ none).error_message ≠ some "" := by
  have h := always_raising_yields_all_error_results (fun _ => PredOutcome.raised "boom")
    [⟨[]⟩] "s" (by simp) (fun c _ => Or.inl ⟨"boom", rfl, by decide⟩)
  have hr := h.2 (execute_test (fun _ => PredOutcome.raised "boom") ⟨[]⟩ none)
    (by simp [execute_batch])
  exact ⟨by simp, h.1, hr.1, hr.2.1, hr.2.2⟩

/-- Claim C6: `generate_dimension_groups` returns the empty list for every
integer size below 2 or above the number of registered dimensions (the
function is total, so no error is ever raised). -/
theorem generate_dimension_groups_invalid_size (k : Int)
    (h : k < 2 ∨ k > (DIMENSION_CLASSES.length : Int)) :
    generate_dimension_groups k = [] := by
  unfold generate_dimension_groups
  rw [if_pos h]

/-- Witness for C6: size 11 exceeds the 10 registered dimensions. -/
theorem generate_dimension_groups_invalid_size_witness :
    ((11 : Int) < 2 ∨ (11 : Int) > (DIMENSION_CLASSES.length : Int)) ∧
    generate_dimension_groups 11 = [] :=
  ⟨Or.inr (by decide), generate_dimension_groups_invalid_size 11 (Or.inr (by decide))⟩

/-- Claim C7: the pass rate reported by `get_summary` is the passed count
over the total count times 100 for a non-empty suite, and exactly 0 for an
empty suite (the guard makes the division unreachable there). -/
theorem get_summary_pass_rate (s : TestSuite) :
    (s.results = [] → (get_summary s).pass_rate = 0) ∧
    (s.results ≠ [] →
      (get_summary s).pass_rate =
        (countWithStatus s.results TestStatus.passed : ℚ) / (s.results.length : ℚ) * 100) := by
  constructor
  · intro h
    simp [get_summary, h]
  · intro h
    have hne : s.results.isEmpty = false := by
      simpa [List.isEmpty_iff] using h
    simp only [get_summary, hne, Bool.false_eq_true, if_false]
    rfl

/-- Witness for C7: a two-result suite with one pass rates 50. -/
theorem get_summary_pass_rate_witness :
    (TestSuite.mk "demo" [⟨⟨[]⟩, TestStatus.passed, 0, none⟩, ⟨⟨[]⟩, TestStatus.failed, 0, none⟩]).results ≠ [] ∧
    (get_summary (TestSuite.mk "demo"
      [⟨⟨[]⟩, TestStatus.passed, 0, none⟩, ⟨⟨[]⟩, TestStatus.failed, 0, none⟩])).pass_rate = 50 := by
  have h := (get_summary_pass_rate (TestSuite.mk "demo"
    [⟨⟨[]⟩, TestStatus.passed, 0, none⟩, ⟨⟨[]⟩, TestStatus.failed, 0, none⟩])).2 (by simp)
  refine ⟨by simp, ?_⟩
  rw [h]
  have hb : (TestStatus.failed == TestStatus.passed) = false := rfl
  norm_num [countWithStatus, List.filter, hb]

/-- Claim C8: the sequential `execute_batch` produces results in exactly the
input order — the suite has one result per combination and its i-th result
is the execution of the i-th input combination. -/
theorem execute_batch_sequential_order (p : DimensionCombination → PredOutcome)
    (combos : List DimensionCombination) (suite_name : String) :
    (execute_batch p combos suite_name).results.length = combos.length ∧
    ∀ i : Nat, (execute_batch p combos suite_name).results[i]? =
      (combos[i]?).map (fun c => execute_test p c none) := by
  constructor
  · simp [execute_batch]
  · intro i
    simp [execute_batch]

/-- Claim C9: the constructor clamps its arguments — every constructed
generator satisfies `2 ≤ min_dimensions` and
`max_dimensions ≤ len(DIMENSION_CLASSES)`, whatever was requested. -/
theorem init_clamps_dimension_bounds (min_arg : Int) (max_arg : Option Int) :
    2 ≤ (CombinationGenerator.init min_arg max_arg).min_dimensions ∧
    (CombinationGenerator.init min_arg max_arg).max_dimensions ≤ (DIMENSION_CLASSES.length : Int) := by
  unfold CombinationGenerator.init
  exact ⟨le_max_left 2 min_arg, min_le_right _ _⟩

/-- Claim C10: a cap of `0` and a ceiling of `0` are falsy in Python, so
`generate_combinations_for_group` with `max_per_dimension = 0` and
`generate_all_combinations` with `max_total_combinations = 0` behave exactly
as with `None`: full variant lists, no ceiling. -/
theorem zero_cap_and_zero_ceiling_behave_as_none :
    (∀ g : List Dimension,
        generate_combinations_for_group g (some 0) = generate_combinations_for_group g none) ∧
    (∀ (lo hi : Int) (cap : Option Nat),
        generate_all_combinations lo hi cap (some 0) =
          generate_all_combinations lo hi cap none) := by
  constructor
  · intro g
    simp [generate_combinations_for_group, truncateValues]
  · intro lo hi cap
    unfold generate_all_combinations
    exact goSizes_zero_ceiling cap _ 0

end GrumpiMiner
